import Mathlib

/-
Verification of the embedding-and-similarity pipeline of
`Word2VecClassification_JobDesc.py`.

The Python source is shallowly embedded as follows:
  * strings are Lean `String`s, and every Python string primitive used by the
    source (`str.lower`, `str.split`, `str.split('\t')`, `str.strip`, the
    punctuation regex substitution) is re-implemented structurally on the
    underlying character list so that concrete instances reduce in the kernel;
  * numpy float vectors are `List ℝ` (exact real arithmetic; rounding of IEEE
    floats is not modelled, tolerance claims are interpreted over ℝ);
  * `scipy.spatial.distance.cosine` is modelled as an `Option ℝ`: the value
    `none` models the IEEE NaN which scipy produces when either argument has
    zero norm (0/0 after the dot-product formula), `some d` models the real
    number `1 - u·v / √((u·u)(v·v))`.  NaN propagation through subsequent
    arithmetic (`1 - NaN = NaN`, a NaN entry poisons a later dot product) is
    modelled by `Option.map` and by an explicit NaN-freeness test;
  * Python dicts are association lists; `dict[k] = v` is `dictInsert`
    (replace in place if the key is present, append otherwise).
-/

namespace JobDesc

/-- Whitespace test of Python `str.split()` (space, tab, newline, carriage
return, vertical tab, form feed). -/
def pyIsSpace (c : Char) : Bool :=
  c == ' ' || c == '\t' || c == '\n' || c == '\r' || c == '\x0b' || c == '\x0c'

/-- Helper for `str.split()`: split a character list on whitespace runs,
discarding empty segments.  `acc` holds the current word, reversed. -/
def splitWsAux : List Char → List Char → List (List Char)
  | [], acc => if acc.isEmpty then [] else [acc.reverse]
  | c :: cs, acc =>
    if pyIsSpace c then
      (if acc.isEmpty then splitWsAux cs [] else acc.reverse :: splitWsAux cs [])
    else splitWsAux cs (c :: acc)

/-- Python `text.split()`: whitespace-delimited tokens, empties discarded. -/
def pyWords (s : String) : List String := (splitWsAux s.data []).map List.asString

/-- Python `str.lower()` (ASCII case folding suffices for this model). -/
def pyLower (s : String) : String := ⟨s.data.map Char.toLower⟩

/-- Character set of Python `string.punctuation`
(the braces, apostrophe and backtick are written with escapes). -/
def punctuationChars : List Char :=
  "!\"#$%&\x27()*+,-./:;<=>?@[\\]^_\x60\x7b|\x7d~".data

/-- Source line 31: `regex.sub(' ', str)` with the punctuation regex —
replace every punctuation character by one space character. -/
def remove_punctuation (s : String) : String :=
  ⟨s.data.map fun c => if punctuationChars.contains c then ' ' else c⟩

/-- Python `str.strip()`: drop leading and trailing whitespace. -/
def pyStrip (s : String) : String :=
  ⟨((s.data.dropWhile fun c => pyIsSpace c).reverse.dropWhile fun c =>
      pyIsSpace c).reverse⟩

/-- Helper for Python `str.split('\t')`: empty fields are kept. -/
def splitTabAux : List Char → List Char → List String
  | [], acc => [acc.reverse.asString]
  | c :: cs, acc =>
    if c == '\t' then acc.reverse.asString :: splitTabAux cs []
    else splitTabAux cs (c :: acc)

/-- Python `line.split('\t')`. -/
def pySplitTab (s : String) : List String := splitTabAux s.data []

/-- Embedding vectors: numpy arrays of floats, modelled as lists of reals. -/
abbrev Vec := List ℝ

/-- The word2vec model and the catalog's id → vector map are both string-keyed
maps to vectors; modelled as association lists (Python dicts). -/
abbrev Lookup := List (String × Vec)

/-- Membership/lookup of the word2vec dict: `word in model` / `model[word]`. -/
def lookupFind (m : Lookup) (w : String) : Option Vec :=
  (m.find? fun p => p.1 == w).map Prod.snd

/-- Elementwise numpy vector addition, `vec += model[word]`. -/
noncomputable def vecAdd (u v : Vec) : Vec := List.zipWith (fun a b => a + b) u v

/-- Source lines 66-73 of `text2vec`: the vectors of the words of
`text.lower().split()` that are present in the model, in order; unknown
words are silently skipped. -/
def foundVecs (text : String) (model : Lookup) : List Vec :=
  (pyWords (pyLower text)).filterMap (lookupFind model)

/-- Source lines 74-78 of `text2vec`: `np.asarray([0] * 300)` when no word was
found, otherwise the accumulated sum divided by the found count. -/
noncomputable def meanVecs : List Vec → Vec
  | [] => List.replicate 300 0
  | v :: rest =>
    (rest.foldl vecAdd v).map fun x => x / ((rest.length + 1 : ℕ) : ℝ)

/-- Source lines 64-78: `text2vec(text, word2vec_model)`. -/
noncomputable def text2vec (text : String) (model : Lookup) : Vec :=
  meanVecs (foundVecs text model)

/-- Dot product `np.dot(u, v)` of equal-length vectors.  On unequal lengths
`np.dot` raises a shape-mismatch error while this zipWith truncates, so the
model is faithful only at matched dimensions; every theorem below evaluates it
only on equal-length vectors. -/
noncomputable def dot (u v : Vec) : ℝ := (List.zipWith (fun a b => a * b) u v).sum

/-- Model of `scipy.spatial.distance.cosine(u, v)`:
`1 - u·v / √((u·u)(v·v))`, and NaN (here `none`) when either vector has zero
norm, i.e. when the denominator vanishes and scipy evaluates 0/0.
(scipy's final `np.clip(dist, 0, 2)` is the identity on the defined branch,
by Cauchy-Schwarz, and maps NaN to NaN, so it is not modelled.) -/
noncomputable def cosDist (u v : Vec) : Option ℝ :=
  if dot u u * dot v v = 0 then none
  else some (1 - dot u v / Real.sqrt (dot u u * dot v v))

/-- Source lines 56-62: `idtext2vec` maps every id of an id → text dict to the
averaged vector of its text. -/
noncomputable def idtext2vec (id_text : List (String × String)) (model : Lookup) :
    List (String × Vec) :=
  id_text.map fun p => (p.1, text2vec p.2 model)

/-- Ordering used by `sorted(...)` on the catalog keys: Python compares
strings lexicographically by code point, i.e. by the underlying character
lists. -/
def keyLe (a b : String) : Prop := a.data ≤ b.data

instance : DecidableRel keyLe := fun a b =>
  inferInstanceAs (Decidable (a.data ≤ b.data))

/-- Source line 114: `jobtitles = sorted(set(jobtitle_vec.keys()))` — the
distinct catalog keys in ascending lexicographic order. -/
def sortedKeys (jv : List (String × Vec)) : List String :=
  List.insertionSort keyLe (jv.map Prod.fst).dedup

/-- Source lines 120-127, one document's side of the loop: the cosine
distances of `v` to the catalog vectors, in sorted-key order.  An entry is
`none` (NaN) when `v` or the catalog vector has zero norm. -/
noncomputable def distanceProfile (v : Vec) (jv : List (String × Vec)) :
    List (Option ℝ) :=
  (sortedKeys jv).map fun jt => cosDist v ((lookupFind jv jt).getD [])

/-- Strip the NaN markers from a profile (defined entries only; used under an
all-defined hypothesis). -/
def stripNaN (l : List (Option ℝ)) : List ℝ := l.map fun o => o.getD 0

/-- Model of `scipy.spatial.distance.cosine` applied to the two distance
profiles (line 128): with IEEE floats any NaN entry in either profile poisons
both dot products, so the result is NaN; otherwise it is the ordinary cosine
distance of the two real vectors. -/
noncomputable def cosDistProfiles (u v : List (Option ℝ)) : Option ℝ :=
  if (u.all fun o => o.isSome) && (v.all fun o => o.isSome) then
    cosDist (stripNaN u) (stripNaN v)
  else none

/-- Source lines 116-129, the body of the per-pair loop of `get_features`:
`jobsim = 1 - cosine(vec1distances, vec2distances)` for one text pair. -/
noncomputable def pairJobsim (p : String × String) (jv : List (String × Vec))
    (model : Lookup) : Option ℝ :=
  (cosDistProfiles (distanceProfile (text2vec p.1 model) jv)
      (distanceProfile (text2vec p.2 model) jv)).map fun d => 1 - d

/-- Source lines 109-131: `get_features(text_pairs, jobtitle_jobdesc,
word2vec_model)` — the job-similarity feature column, one row per input pair
(the `np.asarray(...).reshape(n, 1)` is the identity on the row list). -/
noncomputable def get_features (text_pairs : List (String × String))
    (jobtitle_jobdesc : List (String × String)) (model : Lookup) :
    List (Option ℝ) :=
  text_pairs.map fun p => pairJobsim p (idtext2vec jobtitle_jobdesc model) model

/-- Source lines 84-87, the body of the per-pair loop of `textsimilarity`:
`similarity = 1 - cosine(text2vec(text1), text2vec(text2))`. -/
noncomputable def pairDirectsim (p : String × String) (model : Lookup) :
    Option ℝ :=
  (cosDist (text2vec p.1 model) (text2vec p.2 model)).map fun d => 1 - d

/-- Source lines 80-89: `textsimilarity(text_pairs, word2vec_model)` — the
direct-similarity feature column, one row per input pair. -/
noncomputable def textsimilarity (text_pairs : List (String × String))
    (model : Lookup) : List (Option ℝ) :=
  text_pairs.map fun p => pairDirectsim p model

/-- Python dict assignment `d[k] = v` on an association list: overwrite in
place when the key is present, append otherwise. -/
def dictInsert (m : List (String × String)) (k v : String) :
    List (String × String) :=
  if m.any fun p => p.1 == k then m.map fun p => if p.1 == k then (p.1, v) else p
  else m ++ [(k, v)]

/-- Source line 51: the key under which a record is stored —
`remove_punctuation(fields[1].lower())`, the normalized job title. -/
def normField (s : String) : String := remove_punctuation (pyLower s)

/-- Source lines 40-54: `load_jobs` over the list of input lines.  A line is
stripped and split on tabs; lines without exactly 3 fields are skipped; a kept
record is stored under its normalized title (field 1), with the normalized
description (field 2) as value. -/
def loadStep (acc : List (String × String)) (line : String) :
    List (String × String) :=
  let fields := pySplitTab (pyStrip line)
  if fields.length = 3 then
    dictInsert acc (normField (fields.getD 1 "")) (normField (fields.getD 2 ""))
  else acc

def load_jobs (lines : List String) : List (String × String) :=
  lines.foldl loadStep []

theorem dot_nil_right (u : Vec) : dot u [] = 0 := by
  simp [dot]

theorem dot_self_nonneg (v : Vec) : 0 ≤ dot v v := by
  rw [dot, List.zipWith_same]
  exact List.sum_nonneg fun x hx => by
    rcases List.mem_map.1 hx with ⟨a, _, rfl⟩; exact mul_self_nonneg a

theorem dot_comm (u v : Vec) : dot u v = dot v u := by
  rw [dot, dot, List.zipWith_comm_of_comm (fun a b => a * b) mul_comm]

theorem dot_self_pos (v : Vec) (h : dot v v ≠ 0) : 0 < dot v v :=
  lt_of_le_of_ne (dot_self_nonneg v) (Ne.symm h)

theorem dot_cons (a b : ℝ) (u v : Vec) :
    dot (a :: u) (b :: v) = a * b + dot u v := by
  simp [dot]

theorem dot_zero_left : ∀ u v : Vec, (∀ x ∈ u, x = 0) → dot u v = 0
  | [], _, _ => rfl
  | _ :: _, [], _ => dot_nil_right _
  | a :: u, b :: v, h => by
    rw [dot_cons, h a (by simp), dot_zero_left u v fun x hx => h x (by simp [hx])]
    ring

theorem sq_le_step (a b S U V : ℝ) (hU : 0 ≤ U) (hV : 0 ≤ V) (hS : S ^ 2 ≤ U * V) :
    (a * b + S) ^ 2 ≤ (a ^ 2 + U) * (b ^ 2 + V) := by
  have hP : 0 ≤ a ^ 2 * V + b ^ 2 * U := by positivity
  have hQ2 : (2 * (a * b * S)) ^ 2 ≤ (a ^ 2 * V + b ^ 2 * U) ^ 2 := by
    nlinarith [sq_nonneg (a ^ 2 * V - b ^ 2 * U),
      mul_nonneg (sq_nonneg (a * b)) (sub_nonneg.2 hS)]
  have habs : |2 * (a * b * S)| ≤ a ^ 2 * V + b ^ 2 * U := by
    have h1 := Real.sqrt_le_sqrt hQ2
    rwa [Real.sqrt_sq_eq_abs, Real.sqrt_sq hP] at h1
  have hkey : 2 * (a * b * S) ≤ a ^ 2 * V + b ^ 2 * U :=
    (le_abs_self _).trans habs
  nlinarith [hkey, hS]

theorem dot_sq_le : ∀ u v : Vec, dot u v ^ 2 ≤ dot u u * dot v v
  | [], v => by simp [dot]
  | _ :: _, [] => by
    rw [dot_nil_right, dot_nil_right, mul_zero]
    norm_num
  | a :: u, b :: v => by
    rw [dot_cons, dot_cons, dot_cons]
    have h := sq_le_step a b (dot u v) (dot u u) (dot v v)
      (dot_self_nonneg u) (dot_self_nonneg v) (dot_sq_le u v)
    calc (a * b + dot u v) ^ 2 ≤ (a ^ 2 + dot u u) * (b ^ 2 + dot v v) := h
      _ = (a * a + dot u u) * (b * b + dot v v) := by ring

theorem cosDist_none_iff (u v : Vec) :
    cosDist u v = none ↔ dot u u * dot v v = 0 := by
  rw [cosDist]
  split <;> simp_all

theorem cosDist_eq_formula (u v : Vec) (hu : dot u u ≠ 0) (hv : dot v v ≠ 0) :
    cosDist u v =
      some (1 - dot u v / (Real.sqrt (dot u u) * Real.sqrt (dot v v))) := by
  rw [cosDist, if_neg (mul_ne_zero hu hv),
    Real.sqrt_mul (dot_self_nonneg u) (dot v v)]

theorem cosDist_self (v : Vec) (h : dot v v ≠ 0) : cosDist v v = some 0 := by
  rw [cosDist, if_neg (mul_ne_zero h h),
    Real.sqrt_mul_self (dot_self_nonneg v), div_self h, sub_self]

theorem cosDist_mem_range (u v : Vec) (hu : dot u u ≠ 0) (hv : dot v v ≠ 0)
    (d : ℝ) (hd : cosDist u v = some d) : 0 ≤ d ∧ d ≤ 2 := by
  rw [cosDist, if_neg (mul_ne_zero hu hv)] at hd
  have hpos : 0 < dot u u * dot v v :=
    mul_pos (dot_self_pos u hu) (dot_self_pos v hv)
  have hsq : 0 < Real.sqrt (dot u u * dot v v) := Real.sqrt_pos.2 hpos
  have habs : |dot u v| ≤ Real.sqrt (dot u u * dot v v) :=
    Real.abs_le_sqrt (dot_sq_le u v)
  have h1 : dot u v / Real.sqrt (dot u u * dot v v) ≤ 1 :=
    (div_le_one hsq).2 ((le_abs_self _).trans habs)
  have h2 : -1 ≤ dot u v / Real.sqrt (dot u u * dot v v) := by
    rw [neg_le, ← neg_div]
    exact (div_le_one hsq).2 ((neg_le_abs _).trans habs)
  have : d = 1 - dot u v / Real.sqrt (dot u u * dot v v) := by
    injection hd.symm
  constructor <;> [linarith; linarith]

theorem vecAdd_length (u v : Vec) : (vecAdd u v).length = min u.length v.length := by
  simp [vecAdd]

theorem vecAdd_getD : ∀ u v : Vec, u.length = v.length → ∀ j : ℕ,
    (vecAdd u v).getD j 0 = u.getD j 0 + v.getD j 0
  | [], [], _, j => by simp [vecAdd]
  | [], _ :: _, h, _ => absurd h (by simp)
  | _ :: _, [], h, _ => absurd h (by simp)
  | a :: u, b :: v, h, 0 => by simp [vecAdd]
  | a :: u, b :: v, h, j + 1 => by
    simpa [vecAdd] using vecAdd_getD u v (by simpa using h) j

theorem foldl_vecAdd_length (l : List Vec) (v : Vec)
    (hl : ∀ w ∈ l, w.length = v.length) :
    (l.foldl vecAdd v).length = v.length := by
  induction l generalizing v with
  | nil => rfl
  | cons w l ih =>
    have hw : w.length = v.length := hl w (by simp)
    have hadd : (vecAdd v w).length = v.length := by
      rw [vecAdd_length, hw, min_self]
    rw [List.foldl_cons,
      ih (vecAdd v w) fun x hx => by rw [hl x (by simp [hx]), hadd], hadd]

theorem foldl_vecAdd_getD (l : List Vec) (v : Vec)
    (hl : ∀ w ∈ l, w.length = v.length) (j : ℕ) :
    (l.foldl vecAdd v).getD j 0 =
      v.getD j 0 + (l.map fun w => w.getD j 0).sum := by
  induction l generalizing v with
  | nil => simp
  | cons w l ih =>
    have hw : w.length = v.length := hl w (by simp)
    have hadd : (vecAdd v w).length = v.length := by
      rw [vecAdd_length, hw, min_self]
    rw [List.foldl_cons,
      ih (vecAdd v w) fun x hx => by rw [hl x (by simp [hx]), hadd],
      vecAdd_getD v w hw.symm j]
    simp [add_assoc]

theorem getD_map_div : ∀ (u : Vec) (c : ℝ) (j : ℕ),
    (u.map fun x => x / c).getD j 0 = u.getD j 0 / c
  | [], c, j => by simp
  | a :: u, c, 0 => by simp
  | a :: u, c, j + 1 => by simpa using getD_map_div u c j

theorem foundVecs_length_eq (model : Lookup) (D : ℕ)
    (hD : ∀ p ∈ model, (Prod.snd p).length = D) (t : String) :
    ∀ w ∈ foundVecs t model, w.length = D := by
  intro w hw
  rcases List.mem_filterMap.1 hw with ⟨s, _, hfind⟩
  rcases Option.map_eq_some'.1 hfind with ⟨pr, hpr, hsnd⟩
  rw [← hsnd]
  exact hD pr (List.mem_of_find?_eq_some hpr)

/-- Toy word-vector lookup of spec section 8's worked example:
cat=[1,0], dog=[0,1], car=[1,1], train=[1,-1]. -/
noncomputable def toyModel : Lookup :=
  [("cat", [1, 0]), ("dog", [0, 1]), ("car", [1, 1]), ("train", [1, -1])]

/-- Toy catalog of spec section 8's worked example. -/
def toyCatalog : List (String × String) := [("A", "cat dog"), ("B", "car train")]

theorem text2vec_no_token (t : String) (model : Lookup)
    (h : foundVecs t model = []) : text2vec t model = List.replicate 300 0 := by
  rw [text2vec, h, meanVecs]

/-- C1 (amended): for every input text and every Vector Lookup whose vectors
all have dimension D, `text2vec` returns the element-wise arithmetic mean of
the vectors of the tokens found in the lookup when at least one token is
found (unknown tokens are silently skipped by `filterMap`), and returns a
zero vector of the hardcoded dimension 300 — not of dimension D — when no
token is found. -/
theorem c1_text2vec_mean_or_zero300 (model : Lookup) (D : ℕ) (t : String)
    (hD : ∀ p ∈ model, (Prod.snd p).length = D) :
    (foundVecs t model = [] → text2vec t model = List.replicate 300 0) ∧
    (foundVecs t model ≠ [] →
      (text2vec t model).length = D ∧
      ∀ j : ℕ, (text2vec t model).getD j 0 =
        ((foundVecs t model).map fun w => w.getD j 0).sum /
          ((foundVecs t model).length : ℝ)) := by
  refine ⟨text2vec_no_token t model, fun h => ?_⟩
  obtain ⟨v, rest, hvr⟩ := List.exists_cons_of_ne_nil h
  have hall := foundVecs_length_eq model D hD t
  rw [hvr] at hall
  have hv : v.length = D := hall v (by simp)
  have hrest : ∀ w ∈ rest, w.length = v.length := fun w hw => by
    rw [hall w (by simp [hw]), hv]
  have hfl : (rest.foldl vecAdd v).length = v.length :=
    foldl_vecAdd_length rest v hrest
  rw [text2vec, hvr]
  constructor
  · show ((rest.foldl vecAdd v).map _).length = D
    rw [List.length_map, hfl, hv]
  · intro j
    show ((rest.foldl vecAdd v).map fun x => x / ((rest.length + 1 : ℕ) : ℝ)).getD j 0 = _
    rw [getD_map_div, foldl_vecAdd_getD rest v hrest j]
    simp

/-- C1 as literally stated is false: with the two-dimensional lookup
{cat ↦ [1,0]} and the unknown-token text "qqq", the zero-vector fallback has
dimension 300, not the lookup's dimension D = 2. -/
theorem c1_counterexample :
    (∀ p ∈ ([("cat", [1, 0])] : Lookup), (Prod.snd p).length = 2) ∧
    foundVecs "qqq" [("cat", [1, 0])] = [] ∧
    ¬ (text2vec "qqq" [("cat", [1, 0])]).length = 2 := by
  refine ⟨?_, rfl, ?_⟩
  · intro p hp
    have hp2 : p = ("cat", [1, 0]) := by simpa using hp
    rw [hp2]
    rfl
  · have h : text2vec "qqq" [("cat", [1, 0])] = List.replicate 300 0 :=
      text2vec_no_token _ _ rfl
    rw [h, List.length_replicate]
    omega

/-- Witness for C1's amended theorem at the toy lookup and text "cat dog". -/
theorem c1_witness :
    (text2vec "cat dog" toyModel).length = 2 ∧
    (text2vec "cat dog" toyModel).getD 0 0 =
      ((foundVecs "cat dog" toyModel).map fun w => w.getD 0 0).sum /
        ((foundVecs "cat dog" toyModel).length : ℝ) := by
  have hD : ∀ p ∈ toyModel, (Prod.snd p).length = 2 := by
    intro p hp
    simp only [toyModel, List.mem_cons, List.not_mem_nil, or_false] at hp
    rcases hp with h | h | h | h <;> subst h <;> rfl
  have hfound : foundVecs "cat dog" toyModel = [[1, 0], [0, 1]] := rfl
  have hne : foundVecs "cat dog" toyModel ≠ [] := by
    rw [hfound]; exact List.cons_ne_nil _ _
  have H := (c1_text2vec_mean_or_zero300 toyModel 2 "cat dog" hD).2 hne
  exact ⟨H.1, H.2 0⟩

theorem dot_replicate_zero (n : ℕ) (v : Vec) :
    dot (List.replicate n (0 : ℝ)) v = 0 :=
  dot_zero_left _ v fun _ hx => List.eq_of_mem_replicate hx

theorem cosDist_none_of_left (u v : Vec) (h : dot u u = 0) :
    cosDist u v = none := by
  rw [cosDist, if_pos]
  rw [h, zero_mul]

theorem cosDist_none_of_right (u v : Vec) (h : dot v v = 0) :
    cosDist u v = none := by
  rw [cosDist, if_pos]
  rw [h, mul_zero]

theorem foundVecs_empty_text (model : Lookup) : foundVecs "" model = [] := rfl

theorem text2vec_empty (model : Lookup) :
    text2vec "" model = List.replicate 300 0 :=
  text2vec_no_token "" model (foundVecs_empty_text model)

theorem pairDirectsim_empty (model : Lookup) :
    pairDirectsim ("", "") model = none := by
  rw [pairDirectsim]
  have hz := text2vec_empty model
  rw [show text2vec (("", "") : String × String).1 model = List.replicate 300 0 from hz,
    cosDist_none_of_left _ _ (dot_replicate_zero _ _)]
  rfl

theorem distanceProfile_zero (n : ℕ) (jv : List (String × Vec)) :
    distanceProfile (List.replicate n (0 : ℝ)) jv =
      (sortedKeys jv).map fun _ => none := by
  rw [distanceProfile]
  exact List.map_congr_left fun jt _ =>
    cosDist_none_of_left _ _ (dot_replicate_zero _ _)

theorem cosDistProfiles_nil : cosDistProfiles [] [] = none := by
  have h : cosDist ([] : Vec) ([] : Vec) = none := cosDist_none_of_left _ _ rfl
  simpa [cosDistProfiles, stripNaN] using h

theorem cosDistProfiles_none_left (u v : List (Option ℝ)) (h : none ∈ u) :
    cosDistProfiles u v = none := by
  rw [cosDistProfiles, if_neg]
  simp only [Bool.and_eq_true, List.all_eq_true]
  rintro ⟨h1, -⟩
  have h2 := h1 none h
  simp at h2

theorem pairJobsim_empty (catalog : List (String × String)) (model : Lookup) :
    pairJobsim ("", "") (idtext2vec catalog model) model = none := by
  rw [pairJobsim]
  have hz := text2vec_empty model
  rw [show text2vec (("", "") : String × String).1 model = List.replicate 300 0 from hz,
    distanceProfile_zero]
  cases hk : sortedKeys (idtext2vec catalog model) with
  | nil => rw [List.map_nil, cosDistProfiles_nil]; rfl
  | cons k ks =>
    rw [List.map_cons, cosDistProfiles_none_left _ _ (by simp)]
    rfl

/-- C2 (amended): extracting features for the pair ("", "") is total (never
raises) and yields NaN for both features — there is no fixed fallback value in
the code; uniformly, whenever either vector handed to a cosine-distance
computation has zero norm, the result is NaN (modelled as `none`). -/
theorem c2_empty_pair_is_nan (model : Lookup) (catalog : List (String × String)) :
    textsimilarity [("", "")] model = [none] ∧
    get_features [("", "")] catalog model = [none] ∧
    ∀ u v : Vec, (dot u u = 0 ∨ dot v v = 0) → cosDist u v = none := by
  refine ⟨?_, ?_, ?_⟩
  · rw [textsimilarity, List.map_cons, List.map_nil, pairDirectsim_empty]
  · rw [get_features, List.map_cons, List.map_nil, pairJobsim_empty]
  · rintro u v (h | h)
    · exact cosDist_none_of_left u v h
    · exact cosDist_none_of_right u v h

/-- C2 as literally stated is false: at the concrete pair ("", "") with the
toy lookup, `direct_similarity` is NaN — it equals no real value at all, so in
particular no fixed documented fallback value. -/
theorem c2_counterexample :
    ¬ ∃ r : ℝ, textsimilarity [("", "")] toyModel = [some r] := by
  rintro ⟨r, hr⟩
  rw [textsimilarity, List.map_cons, List.map_nil, pairDirectsim_empty] at hr
  simp at hr

/-- Witness for C2's amended theorem at the toy lookup and catalog, with the
zero-norm hypothesis discharged at u = [0], v = [1]. -/
theorem c2_witness :
    textsimilarity [("", "")] toyModel = [none] ∧
    cosDist [(0 : ℝ)] [(1 : ℝ)] = none := by
  have H := c2_empty_pair_is_nan toyModel toyCatalog
  exact ⟨H.1, H.2.2 [(0 : ℝ)] [(1 : ℝ)] (Or.inl (by simp [dot]))⟩

theorem pairDirectsim_self (t : String) (model : Lookup)
    (h : dot (text2vec t model) (text2vec t model) ≠ 0) :
    pairDirectsim (t, t) model = some 1 := by
  rw [pairDirectsim]
  rw [show ((t, t) : String × String).1 = t from rfl,
    show ((t, t) : String × String).2 = t from rfl, cosDist_self _ h]
  simp

theorem pairJobsim_self (t : String) (jv : List (String × Vec)) (model : Lookup)
    (hall : (distanceProfile (text2vec t model) jv).all (fun o => o.isSome) = true)
    (hnz : dot (stripNaN (distanceProfile (text2vec t model) jv))
      (stripNaN (distanceProfile (text2vec t model) jv)) ≠ 0) :
    pairJobsim (t, t) jv model = some 1 := by
  rw [pairJobsim]
  rw [show ((t, t) : String × String).1 = t from rfl,
    show ((t, t) : String × String).2 = t from rfl]
  rw [cosDistProfiles, if_pos (by rw [hall]; rfl), cosDist_self _ hnz]
  simp

/-- C5 (amended): for every text t whose document vector has nonzero norm,
direct self-similarity is exactly 1.0; job self-similarity is exactly 1.0
under the additional hypotheses that every entry of the t-profile is defined
(no catalog entry embeds to a zero vector) and the profile itself has nonzero
norm.  Having at least one known token is not sufficient: opposite word
vectors can average to the zero vector (see the counterexample). -/
theorem c5_self_similarity (model : Lookup) (catalog : List (String × String))
    (t : String) :
    (dot (text2vec t model) (text2vec t model) ≠ 0 →
      pairDirectsim (t, t) model = some 1) ∧
    ((distanceProfile (text2vec t model) (idtext2vec catalog model)).all
        (fun o => o.isSome) = true →
      dot (stripNaN (distanceProfile (text2vec t model) (idtext2vec catalog model)))
          (stripNaN (distanceProfile (text2vec t model) (idtext2vec catalog model))) ≠ 0 →
      pairJobsim (t, t) (idtext2vec catalog model) model = some 1) :=
  ⟨pairDirectsim_self t model, pairJobsim_self t (idtext2vec catalog model) model⟩

/-- C5 as literally stated is false: with the lookup {cat ↦ [1], dog ↦ [-1]}
the text "cat dog" has two known tokens, yet its document vector is the zero
vector, so `direct_similarity(t, t)` is NaN, not 1.0. -/
theorem c5_counterexample :
    foundVecs "cat dog" [("cat", [1]), ("dog", [-1])] ≠ [] ∧
    ¬ pairDirectsim ("cat dog", "cat dog") [("cat", [1]), ("dog", [-1])] = some 1 := by
  constructor
  · rw [show foundVecs "cat dog" [("cat", [1]), ("dog", [-1])] = [[1], [-1]] from rfl]
    exact List.cons_ne_nil _ _
  · have hv : text2vec "cat dog" [("cat", [1]), ("dog", [-1])] = [(0 : ℝ)] := by
      rw [text2vec,
        show foundVecs "cat dog" [("cat", [1]), ("dog", [-1])] = [[1], [-1]] from rfl,
        meanVecs]
      simp [vecAdd]
    rw [pairDirectsim,
      show (("cat dog", "cat dog") : String × String).1 = "cat dog" from rfl,
      show (("cat dog", "cat dog") : String × String).2 = "cat dog" from rfl, hv,
      cosDist_none_of_left _ _ (by simp [dot])]
    simp

/-- Witness for C5's amended theorem: t = "cat" with the toy lookup and the
one-entry catalog {A ↦ "dog"}; both self-similarities evaluate to 1.0. -/
theorem c5_witness :
    pairDirectsim ("cat", "cat") toyModel = some 1 ∧
    pairJobsim ("cat", "cat") (idtext2vec [("A", "dog")] toyModel) toyModel = some 1 := by
  have ht : text2vec "cat" toyModel = [(1 : ℝ), 0] := by
    rw [text2vec, show foundVecs "cat" toyModel = [[1, 0]] from rfl, meanVecs]
    norm_num
  have hdog : text2vec "dog" toyModel = [(0 : ℝ), 1] := by
    rw [text2vec, show foundVecs "dog" toyModel = [[0, 1]] from rfl, meanVecs]
    norm_num
  have hjv : idtext2vec [("A", "dog")] toyModel = [("A", [(0 : ℝ), 1])] := by
    rw [idtext2vec, List.map_cons, List.map_nil]
    rw [show (("A", "dog") : String × String).2 = "dog" from rfl, hdog]
  have hsk : sortedKeys [("A", [(0 : ℝ), 1])] = ["A"] := rfl
  have hprof : distanceProfile (text2vec "cat" toyModel) (idtext2vec [("A", "dog")] toyModel)
      = [some 1] := by
    rw [ht, hjv, distanceProfile, hsk, List.map_cons, List.map_nil]
    rw [show (lookupFind [("A", [(0 : ℝ), 1])] "A").getD [] = [(0 : ℝ), 1] from rfl]
    rw [cosDist, if_neg (by simp [dot])]
    simp [dot]
  have H := c5_self_similarity toyModel [("A", "dog")] "cat"
  constructor
  · exact H.1 (by rw [ht]; simp [dot])
  · exact H.2 (by rw [hprof]; rfl)
      (by rw [hprof]; simp [stripNaN, dot])

theorem toy_text2vec_cat : text2vec "cat" toyModel = [(1 : ℝ), 0] := by
  rw [text2vec, show foundVecs "cat" toyModel = [[1, 0]] from rfl, meanVecs]
  norm_num

theorem toy_text2vec_qqq : text2vec "qqq" toyModel = List.replicate 300 0 :=
  text2vec_no_token "qqq" toyModel rfl

theorem sim_bounds_of_cosDist (u v : Vec) (hu : dot u u ≠ 0) (hv : dot v v ≠ 0)
    (s : ℝ) (hs : (cosDist u v).map (fun d => 1 - d) = some s) :
    -1 ≤ s ∧ s ≤ 1 := by
  have hd : cosDist u v = some (1 - dot u v / Real.sqrt (dot u u * dot v v)) := by
    rw [cosDist, if_neg (mul_ne_zero hu hv)]
  rw [hd] at hs
  simp only [Option.map_some', Option.some.injEq] at hs
  have hr := cosDist_mem_range u v hu hv _ hd
  constructor <;> [linarith [hr.2, hs]; linarith [hr.1, hs]]

/-- C6 (amended): for a pair whose two document vectors have nonzero norm the
direct similarity is a defined real value in [-1, 1]; when either document
vector has zero norm it is NaN (`none`) — the code applies no documented
fallback value.  Likewise the job similarity is a defined value in [-1, 1]
whenever both distance profiles are NaN-free and have nonzero norm. -/
theorem c6_range_or_nan (model : Lookup) (catalog : List (String × String))
    (p : String × String) :
    (dot (text2vec p.1 model) (text2vec p.1 model) ≠ 0 →
      dot (text2vec p.2 model) (text2vec p.2 model) ≠ 0 →
      pairDirectsim p model ≠ none ∧
      ∀ s : ℝ, pairDirectsim p model = some s → -1 ≤ s ∧ s ≤ 1) ∧
    ((dot (text2vec p.1 model) (text2vec p.1 model) = 0 ∨
        dot (text2vec p.2 model) (text2vec p.2 model) = 0) →
      pairDirectsim p model = none) ∧
    ((distanceProfile (text2vec p.1 model) (idtext2vec catalog model)).all
        (fun o => o.isSome) = true →
      (distanceProfile (text2vec p.2 model) (idtext2vec catalog model)).all
        (fun o => o.isSome) = true →
      dot (stripNaN (distanceProfile (text2vec p.1 model) (idtext2vec catalog model)))
        (stripNaN (distanceProfile (text2vec p.1 model) (idtext2vec catalog model))) ≠ 0 →
      dot (stripNaN (distanceProfile (text2vec p.2 model) (idtext2vec catalog model)))
        (stripNaN (distanceProfile (text2vec p.2 model) (idtext2vec catalog model))) ≠ 0 →
      pairJobsim p (idtext2vec catalog model) model ≠ none ∧
      ∀ s : ℝ, pairJobsim p (idtext2vec catalog model) model = some s →
        -1 ≤ s ∧ s ≤ 1) := by
  refine ⟨fun h1 h2 => ⟨?_, fun s hs => ?_⟩, fun h => ?_, fun ha1 ha2 hn1 hn2 => ⟨?_, fun s hs => ?_⟩⟩
  · rw [pairDirectsim, cosDist, if_neg (mul_ne_zero h1 h2)]
    simp
  · exact sim_bounds_of_cosDist _ _ h1 h2 s (by rw [← pairDirectsim]; exact hs)
  · rcases h with h | h
    · rw [pairDirectsim, cosDist_none_of_left _ _ h]; rfl
    · rw [pairDirectsim, cosDist_none_of_right _ _ h]; rfl
  · rw [pairJobsim, cosDistProfiles, if_pos (by rw [ha1, ha2]; rfl),
      cosDist, if_neg (mul_ne_zero hn1 hn2)]
    simp
  · rw [pairJobsim, cosDistProfiles, if_pos (by rw [ha1, ha2]; rfl)] at hs
    exact sim_bounds_of_cosDist _ _ hn1 hn2 s hs

/-- C6 as literally stated is false at the concrete pair ("cat dog", "cat")
with the one-dimensional lookup {cat ↦ [1], dog ↦ [-1]}: both document
vectors have the matched dimension 1, the first ("cat dog" averages 1 and -1)
is the zero vector [0], and scipy evaluates 0/0, so the direct similarity
equals no real value at all (it is NaN) — hence no documented fallback
value. -/
theorem c6_counterexample :
    ¬ ∃ r : ℝ, pairDirectsim ("cat dog", "cat") [("cat", [1]), ("dog", [-1])] = some r := by
  rintro ⟨r, hr⟩
  have hv : text2vec "cat dog" [("cat", [1]), ("dog", [-1])] = [(0 : ℝ)] := by
    rw [text2vec,
      show foundVecs "cat dog" [("cat", [1]), ("dog", [-1])] = [[1], [-1]] from rfl,
      meanVecs]
    simp [vecAdd]
  rw [pairDirectsim,
    show text2vec (("cat dog", "cat") : String × String).1 [("cat", [1]), ("dog", [-1])]
      = [(0 : ℝ)] from hv,
    cosDist_none_of_left _ _ (by simp [dot])] at hr
  simp at hr

/-- Witness for C6's amended theorem at the pair ("cat", "cat") with the toy
lookup and the catalog {A ↦ "dog"}: both similarities are defined, equal 1,
and the bounds hold; the NaN branch is witnessed at ("qqq", "qqq"). -/
theorem c6_witness :
    ((-1 : ℝ) ≤ 1 ∧ (1 : ℝ) ≤ 1) ∧
    pairDirectsim ("qqq", "qqq") toyModel = none ∧
    pairJobsim ("cat", "cat") (idtext2vec [("A", "dog")] toyModel) toyModel ≠ none := by
  have hnz : dot (text2vec "cat" toyModel) (text2vec "cat" toyModel) ≠ 0 := by
    rw [toy_text2vec_cat]; simp [dot]
  have hps : pairDirectsim ("cat", "cat") toyModel = some 1 :=
    pairDirectsim_self "cat" toyModel hnz
  have hdog : text2vec "dog" toyModel = [(0 : ℝ), 1] := by
    rw [text2vec, show foundVecs "dog" toyModel = [[0, 1]] from rfl, meanVecs]
    norm_num
  have hjv : idtext2vec [("A", "dog")] toyModel = [("A", [(0 : ℝ), 1])] := by
    rw [idtext2vec, List.map_cons, List.map_nil]
    rw [show (("A", "dog") : String × String).2 = "dog" from rfl, hdog]
  have hprof : distanceProfile (text2vec "cat" toyModel) (idtext2vec [("A", "dog")] toyModel)
      = [some 1] := by
    rw [toy_text2vec_cat, hjv, distanceProfile,
      show sortedKeys [("A", [(0 : ℝ), 1])] = ["A"] from rfl, List.map_cons, List.map_nil]
    rw [show (lookupFind [("A", [(0 : ℝ), 1])] "A").getD [] = [(0 : ℝ), 1] from rfl]
    rw [cosDist, if_neg (by simp [dot])]
    simp [dot]
  have H := c6_range_or_nan toyModel [("A", "dog")] ("cat", "cat")
  have H2 := c6_range_or_nan toyModel [("A", "dog")] ("qqq", "qqq")
  refine ⟨(H.1 hnz hnz).2 1 hps, ?_, ?_⟩
  · exact H2.2.1 (Or.inl (by
      rw [show text2vec (("qqq", "qqq") : String × String).1 toyModel = List.replicate 300 0
        from toy_text2vec_qqq]
      exact dot_replicate_zero _ _))
  · exact (H.2.2 (by rw [hprof]; rfl) (by rw [hprof]; rfl)
      (by rw [hprof]; simp [stripNaN, dot])
      (by rw [hprof]; simp [stripNaN, dot])).1

theorem dot_pair (a b c d : ℝ) : dot [a, b] [c, d] = a * c + b * d := by
  simp [dot]

theorem toy_text2vec_catdog : text2vec "cat dog" toyModel = [(1/2 : ℝ), 1/2] := by
  rw [text2vec, show foundVecs "cat dog" toyModel = [[1, 0], [0, 1]] from rfl, meanVecs]
  simp [vecAdd]

theorem toy_text2vec_cartrain : text2vec "car train" toyModel = [(1 : ℝ), 0] := by
  rw [text2vec, show foundVecs "car train" toyModel = [[1, 1], [1, -1]] from rfl, meanVecs]
  simp [vecAdd]

theorem toy_jv : idtext2vec toyCatalog toyModel =
    [("A", [(1/2 : ℝ), 1/2]), ("B", [(1 : ℝ), 0])] := by
  rw [idtext2vec, toyCatalog, List.map_cons, List.map_cons, List.map_nil]
  rw [show (("A", "cat dog") : String × String).2 = "cat dog" from rfl,
    show (("B", "car train") : String × String).2 = "car train" from rfl,
    toy_text2vec_catdog, toy_text2vec_cartrain]

theorem sqrt_half : Real.sqrt (1 / 2 : ℝ) = Real.sqrt 2 / 2 := by
  have hsq : ((Real.sqrt 2 / 2) ^ 2 : ℝ) = 1 / 2 := by
    rw [div_pow, Real.sq_sqrt (by norm_num : (0 : ℝ) ≤ 2)]
    norm_num
  rw [← hsq, Real.sqrt_sq (by positivity)]

theorem cosDist_cat_A :
    cosDist [(1 : ℝ), 0] [(1/2 : ℝ), 1/2] = some (1 - Real.sqrt 2 / 2) := by
  have h1 : dot [(1 : ℝ), 0] [(1 : ℝ), 0] = 1 := by rw [dot_pair]; norm_num
  have h2 : dot [(1/2 : ℝ), 1/2] [(1/2 : ℝ), 1/2] = 1/2 := by rw [dot_pair]; norm_num
  have h3 : dot [(1 : ℝ), 0] [(1/2 : ℝ), 1/2] = 1/2 := by rw [dot_pair]; norm_num
  rw [cosDist, h1, h2, h3, if_neg (by norm_num)]
  have hs2 : Real.sqrt 2 * Real.sqrt 2 = 2 := Real.mul_self_sqrt (by norm_num)
  have hpos : (0 : ℝ) < Real.sqrt 2 := Real.sqrt_pos.2 (by norm_num)
  have hdiv : (1/2 : ℝ) / Real.sqrt (1 * (1/2)) = Real.sqrt 2 / 2 := by
    rw [one_mul, sqrt_half]
    field_simp
  rw [hdiv]

theorem sqrt2_bounds :
    (1.4142116 : ℝ) ≤ Real.sqrt 2 ∧ Real.sqrt 2 ≤ (1.4142156 : ℝ) := by
  constructor
  · have h := Real.sqrt_le_sqrt (show ((1.4142116 : ℝ)) ^ 2 ≤ 2 by norm_num)
    rwa [Real.sqrt_sq (by norm_num : (0 : ℝ) ≤ 1.4142116)] at h
  · have h := Real.sqrt_le_sqrt (show (2 : ℝ) ≤ (1.4142156 : ℝ) ^ 2 by norm_num)
    rwa [Real.sqrt_sq (by norm_num : (0 : ℝ) ≤ 1.4142156)] at h

/-- C4 (confirmed): for vectors of nonzero norm the computed cosine distance
is `1 - u·v / (‖u‖·‖v‖)`; and on the toy catalog {A ↦ "cat dog",
B ↦ "car train"} with the toy lookup, the distance profile of "cat" is
exactly [1 - √2/2, 0] — the value 1 - √2/2 is within 1e-6 of 0.2928932
(the spec's "≈ 0.293") and within 1e-3 of 0.293 itself. -/
theorem c4_cosine_formula_and_toy_profile :
    (∀ u v : Vec, dot u u ≠ 0 → dot v v ≠ 0 →
      cosDist u v =
        some (1 - dot u v / (Real.sqrt (dot u u) * Real.sqrt (dot v v)))) ∧
    distanceProfile (text2vec "cat" toyModel) (idtext2vec toyCatalog toyModel) =
      [some (1 - Real.sqrt 2 / 2), some 0] ∧
    |(1 - Real.sqrt 2 / 2) - 0.2928932| ≤ 0.000001 ∧
    |(1 - Real.sqrt 2 / 2) - 0.293| ≤ 0.001 := by
  obtain ⟨hlb, hub⟩ := sqrt2_bounds
  refine ⟨cosDist_eq_formula, ?_, ?_, ?_⟩
  · rw [toy_text2vec_cat, toy_jv, distanceProfile,
      show sortedKeys [("A", [(1/2 : ℝ), 1/2]), ("B", [(1 : ℝ), 0])] = ["A", "B"] from rfl,
      List.map_cons, List.map_cons, List.map_nil]
    rw [show (lookupFind [("A", [(1/2 : ℝ), 1/2]), ("B", [(1 : ℝ), 0])] "A").getD []
        = [(1/2 : ℝ), 1/2] from rfl,
      show (lookupFind [("A", [(1/2 : ℝ), 1/2]), ("B", [(1 : ℝ), 0])] "B").getD []
        = [(1 : ℝ), 0] from rfl,
      cosDist_cat_A, cosDist_self _ (by rw [dot_pair]; norm_num)]
  · rw [abs_le]
    constructor <;> linarith
  · rw [abs_le]
    constructor <;> linarith

/-- Witness for C4: the general formula applied at u = [1, 0], v = [0, 1],
whose norms are nonzero. -/
theorem c4_witness :
    cosDist [(1 : ℝ), 0] [(0 : ℝ), 1] =
      some (1 - dot [(1 : ℝ), 0] [(0 : ℝ), 1] /
        (Real.sqrt (dot [(1 : ℝ), 0] [(1 : ℝ), 0]) *
          Real.sqrt (dot [(0 : ℝ), 1] [(0 : ℝ), 1]))) :=
  c4_cosine_formula_and_toy_profile.1 [(1 : ℝ), 0] [(0 : ℝ), 1]
    (by rw [dot_pair]; norm_num) (by rw [dot_pair]; norm_num)

instance : IsTotal String keyLe := ⟨fun a b => le_total a.data b.data⟩

instance : IsTrans String keyLe := ⟨fun _ _ _ hab hbc => le_trans hab hbc⟩

instance : IsAntisymm String keyLe := ⟨fun a b h1 h2 => by
  have hd : a.data = b.data := le_antisymm h1 h2
  cases a
  cases b
  exact congrArg String.mk hd⟩

theorem sortedKeys_sorted (jv : List (String × Vec)) :
    List.Sorted keyLe (sortedKeys jv) :=
  List.sorted_insertionSort keyLe _

theorem sortedKeys_perm_dedup (jv : List (String × Vec)) :
    (sortedKeys jv).Perm (jv.map Prod.fst).dedup :=
  List.perm_insertionSort keyLe _

theorem idtext2vec_keys (catalog : List (String × String)) (model : Lookup) :
    (idtext2vec catalog model).map Prod.fst = catalog.map Prod.fst := by
  rw [idtext2vec, List.map_map]
  rfl

theorem getD_map_lt {α β : Type} (f : α → β) (l : List α) (i : ℕ)
    (h : i < l.length) (d0 : α) (d : β) :
    (l.map f).getD i d = f (l.getD i d0) := by
  rw [List.getD_eq_getElem _ _ (by simpa using h), List.getD_eq_getElem _ _ h,
    List.getElem_map]

theorem distanceProfile_length (v : Vec) (jv : List (String × Vec)) :
    (distanceProfile v jv).length = (sortedKeys jv).length := by
  rw [distanceProfile, List.length_map]

/-- C3 (confirmed): in any one `get_features` call over a duplicate-free
catalog, the sorted key list is lexicographically sorted and is a permutation
of the catalog keys; every distance profile has length equal to the catalog
size; profile entry j is the cosine distance to the vector of sorted key j;
and row i of the output is built from the two profiles of pair i computed
against that single shared ordering. -/
theorem c3_profile_alignment (catalog : List (String × String)) (model : Lookup)
    (hnd : (catalog.map Prod.fst).Nodup) (text_pairs : List (String × String))
    (i : ℕ) (hi : i < text_pairs.length) :
    List.Sorted keyLe (sortedKeys (idtext2vec catalog model)) ∧
    (sortedKeys (idtext2vec catalog model)).Perm (catalog.map Prod.fst) ∧
    (∀ v : Vec,
      (distanceProfile v (idtext2vec catalog model)).length = catalog.length) ∧
    (∀ (v : Vec) (j : ℕ), j < (sortedKeys (idtext2vec catalog model)).length →
      (distanceProfile v (idtext2vec catalog model)).getD j none =
        cosDist v ((lookupFind (idtext2vec catalog model)
          ((sortedKeys (idtext2vec catalog model)).getD j "")).getD [])) ∧
    (get_features text_pairs catalog model).getD i none =
      (cosDistProfiles
        (distanceProfile (text2vec (text_pairs.getD i ("", "")).1 model)
          (idtext2vec catalog model))
        (distanceProfile (text2vec (text_pairs.getD i ("", "")).2 model)
          (idtext2vec catalog model))).map (fun d => 1 - d) := by
  have hkeys : (idtext2vec catalog model).map Prod.fst = catalog.map Prod.fst :=
    idtext2vec_keys catalog model
  have hded : ((idtext2vec catalog model).map Prod.fst).dedup
      = catalog.map Prod.fst := by
    rw [hkeys]
    exact List.dedup_eq_self.2 hnd
  refine ⟨sortedKeys_sorted _, ?_, ?_, ?_, ?_⟩
  · have h := sortedKeys_perm_dedup (idtext2vec catalog model)
    rwa [hded] at h
  · intro v
    rw [distanceProfile_length, sortedKeys]
    rw [(List.perm_insertionSort keyLe _).length_eq, hded, List.length_map]
  · intro v j hj
    rw [distanceProfile, getD_map_lt _ _ j hj ""]
  · rw [get_features, getD_map_lt _ _ i hi ("", "")]
    rfl

/-- Witness for C3 at the toy catalog, toy lookup, and the one-pair batch. -/
theorem c3_witness :
    (sortedKeys (idtext2vec toyCatalog toyModel)).Perm (toyCatalog.map Prod.fst) ∧
    (distanceProfile [(1 : ℝ), 0] (idtext2vec toyCatalog toyModel)).length =
      toyCatalog.length := by
  have H := c3_profile_alignment toyCatalog toyModel (by decide)
    [("cat", "dog")] 0 (by decide)
  exact ⟨H.2.1, H.2.2.1 [(1 : ℝ), 0]⟩

theorem lookupFind_cons (x : String × Vec) (t : List (String × Vec)) (k : String) :
    lookupFind (x :: t) k = if x.1 == k then some x.2 else lookupFind t k := by
  by_cases h : x.1 == k
  · rw [lookupFind, @List.find?_cons_of_pos _ (fun q => q.1 == k) x t h, if_pos h]
    rfl
  · rw [lookupFind, @List.find?_cons_of_neg _ (fun q => q.1 == k) x t
      (by simpa using h), if_neg h]
    rfl

theorem lookupFind_perm : ∀ {l1 l2 : List (String × Vec)}, l1.Perm l2 →
    ((l1.map Prod.fst).Nodup) → ∀ k : String, lookupFind l1 k = lookupFind l2 k := by
  intro l1 l2 h
  induction h with
  | nil => exact fun _ _ => rfl
  | cons x h ih =>
    intro hnd k
    rw [List.map_cons] at hnd
    rw [lookupFind_cons, lookupFind_cons, ih (List.nodup_cons.1 hnd).2 k]
  | swap x y l =>
    intro hnd k
    rw [List.map_cons, List.map_cons] at hnd
    have hxy : y.1 ≠ x.1 := by
      have h1 := (List.nodup_cons.1 hnd).1
      intro hc
      exact h1 (by rw [hc]; exact List.mem_cons_self _ _)
    rw [lookupFind_cons, lookupFind_cons, lookupFind_cons, lookupFind_cons]
    by_cases h1 : y.1 == k <;> by_cases h2 : x.1 == k
    · exact absurd (by rw [eq_of_beq h1, eq_of_beq h2] : y.1 = x.1) hxy
    · rw [if_pos h1, if_neg h2, if_pos h1]
    · rw [if_neg h1, if_pos h2, if_pos h2]
    · rw [if_neg h1, if_neg h2, if_neg h2, if_neg h1]
  | trans h12 h23 ih1 ih2 =>
    intro hnd k
    have hnd2 : _ := ((h12.map Prod.fst).nodup_iff).1 hnd
    rw [ih1 hnd k, ih2 hnd2 k]

theorem sortedKeys_eq_of_perm {l1 l2 : List (String × Vec)} (h : l1.Perm l2) :
    sortedKeys l1 = sortedKeys l2 :=
  List.eq_of_perm_of_sorted
    ((List.perm_insertionSort keyLe _).trans
      (((h.map Prod.fst).dedup).trans (List.perm_insertionSort keyLe _).symm))
    (List.sorted_insertionSort keyLe _) (List.sorted_insertionSort keyLe _)

theorem distanceProfile_eq_of_perm {l1 l2 : List (String × Vec)} (h : l1.Perm l2)
    (hnd : (l1.map Prod.fst).Nodup) (v : Vec) :
    distanceProfile v l1 = distanceProfile v l2 := by
  rw [distanceProfile, distanceProfile, sortedKeys_eq_of_perm h]
  exact List.map_congr_left fun jt _ => by rw [lookupFind_perm h hnd jt]

/-- C7 (confirmed): permuting the stored order of a duplicate-free catalog
leaves the output of `get_features` unchanged for every batch of pairs: both
profiles of a pair are rebuilt against the identical sorted key list, so every
row is identical. -/
theorem c7_catalog_order_invariance (text_pairs : List (String × String))
    (catalog catalog2 : List (String × String)) (model : Lookup)
    (hperm : catalog.Perm catalog2) (hnd : (catalog.map Prod.fst).Nodup) :
    get_features text_pairs catalog2 model = get_features text_pairs catalog model := by
  have hp : (idtext2vec catalog model).Perm (idtext2vec catalog2 model) :=
    hperm.map _
  have hnd1 : ((idtext2vec catalog model).map Prod.fst).Nodup := by
    rw [idtext2vec_keys]
    exact hnd
  rw [get_features, get_features]
  refine List.map_congr_left fun p _ => ?_
  rw [pairJobsim, pairJobsim,
    distanceProfile_eq_of_perm hp hnd1 (text2vec p.1 model),
    distanceProfile_eq_of_perm hp hnd1 (text2vec p.2 model)]

/-- Witness for C7: the toy catalog against its reversal. -/
theorem c7_witness :
    get_features [("cat", "dog")] [("B", "car train"), ("A", "cat dog")] toyModel =
      get_features [("cat", "dog")] toyCatalog toyModel :=
  c7_catalog_order_invariance [("cat", "dog")] toyCatalog
    [("B", "car train"), ("A", "cat dog")] toyModel (by decide) (by decide)

/-- C8 (confirmed): on a batch of N pairs both feature extractors return
exactly N rows, and row i is the per-pair feature of input pair i. -/
theorem c8_batch_alignment (text_pairs : List (String × String))
    (catalog : List (String × String)) (model : Lookup) (i : ℕ)
    (hi : i < text_pairs.length) :
    (get_features text_pairs catalog model).length = text_pairs.length ∧
    (textsimilarity text_pairs model).length = text_pairs.length ∧
    (get_features text_pairs catalog model).getD i none =
      pairJobsim (text_pairs.getD i ("", "")) (idtext2vec catalog model) model ∧
    (textsimilarity text_pairs model).getD i none =
      pairDirectsim (text_pairs.getD i ("", "")) model := by
  refine ⟨?_, ?_, ?_, ?_⟩
  · rw [get_features, List.length_map]
  · rw [textsimilarity, List.length_map]
  · rw [get_features, getD_map_lt _ _ i hi ("", "")]
  · rw [textsimilarity, getD_map_lt _ _ i hi ("", "")]

/-- Witness for C8 at a concrete two-pair batch. -/
theorem c8_witness :
    (get_features [("cat", "dog"), ("car", "train")] toyCatalog toyModel).length = 2 ∧
    (textsimilarity [("cat", "dog"), ("car", "train")] toyModel).getD 1 none =
      pairDirectsim ("car", "train") toyModel := by
  have H := c8_batch_alignment [("cat", "dog"), ("car", "train")] toyCatalog
    toyModel 1 (by decide)
  exact ⟨H.1, H.2.2.2⟩

/-- C9 (amended): `text2vec` hardcodes dimension 300 for the empty-document
fallback and performs no dimension check anywhere; consequently all document
vectors (including the zero fallback) have dimension 300 exactly when the
lookup's dimension is 300. -/
theorem c9_dimension_300 (model : Lookup) (t : String)
    (hD : ∀ p ∈ model, (Prod.snd p).length = 300) :
    (text2vec t model).length = 300 := by
  cases hf : foundVecs t model with
  | nil => rw [text2vec_no_token t model hf, List.length_replicate]
  | cons v rest =>
    have hall := foundVecs_length_eq model 300 hD t
    rw [hf] at hall
    have hv : v.length = 300 := hall v (by simp)
    have hrest : ∀ w ∈ rest, w.length = v.length := fun w hw => by
      rw [hall w (by simp [hw]), hv]
    rw [text2vec, hf, meanVecs, List.length_map,
      foldl_vecAdd_length rest v hrest, hv]

/-- C9 as literally stated is false: there is no fail-fast check at
catalog-build time — with the two-dimensional lookup {cat ↦ [1,0]} the
empty document embeds to a 300-dimensional zero vector while "cat" embeds to
a 2-dimensional vector, so the dimensions of document vectors disagree and the
mismatch can only surface later, inside a per-pair cosine call. -/
theorem c9_counterexample :
    (∀ p ∈ ([("cat", [1, 0])] : Lookup), (Prod.snd p).length = 2) ∧
    (text2vec "cat" [("cat", [1, 0])]).length = 2 ∧
    (text2vec "" [("cat", [1, 0])]).length = 300 ∧
    (text2vec "" [("cat", [1, 0])]).length ≠
      (text2vec "cat" [("cat", [1, 0])]).length := by
  have hcat : (text2vec "cat" [("cat", [1, 0])]).length = 2 := by
    rw [text2vec, show foundVecs "cat" [("cat", [1, 0])] = [[1, 0]] from rfl,
      meanVecs, List.length_map]
    rfl
  have hemp : (text2vec "" [("cat", [1, 0])]).length = 300 := by
    rw [text2vec_empty, List.length_replicate]
  refine ⟨?_, hcat, hemp, ?_⟩
  · intro p hp
    have hp2 : p = ("cat", [1, 0]) := by simpa using hp
    rw [hp2]
    rfl
  · rw [hcat, hemp]
    omega

/-- Witness for C9's amended theorem at a 300-dimensional one-word lookup. -/
theorem c9_witness :
    (text2vec "cat" [("cat", List.replicate 300 (1 : ℝ))]).length = 300 := by
  refine c9_dimension_300 [("cat", List.replicate 300 (1 : ℝ))] "cat" ?_
  intro p hp
  have hp2 : p = ("cat", List.replicate 300 (1 : ℝ)) := List.mem_singleton.1 hp
  rw [hp2]
  exact List.length_replicate 300 1

/-- Association-list lookup for the job catalog (Python `dict[k]` /
`k in dict`). -/
def descFind (m : List (String × String)) (k : String) : Option String :=
  (m.find? fun p => p.1 == k).map Prod.snd

theorem descFind_cons (x : String × String) (t : List (String × String))
    (k : String) :
    descFind (x :: t) k = if x.1 == k then some x.2 else descFind t k := by
  by_cases h : x.1 == k
  · rw [descFind, @List.find?_cons_of_pos _ (fun q => q.1 == k) x t h, if_pos h]
    rfl
  · rw [descFind, @List.find?_cons_of_neg _ (fun q => q.1 == k) x t
      (by simpa using h), if_neg h]
    rfl

theorem descFind_overwrite : ∀ (m : List (String × String)) (k v : String),
    (m.any fun p => p.1 == k) = true →
    descFind (m.map fun p => if p.1 == k then (p.1, v) else p) k = some v := by
  intro m k v h
  induction m with
  | nil => simp at h
  | cons x t ih =>
    by_cases hx : x.1 == k
    · rw [List.map_cons, if_pos hx, descFind_cons, if_pos hx]
    · rw [List.map_cons, if_neg hx, descFind_cons, if_neg hx]
      exact ih (by simpa [List.any_cons, hx] using h)

theorem descFind_append_new : ∀ (m : List (String × String)) (k v : String),
    (m.any fun p => p.1 == k) = false →
    descFind (m ++ [(k, v)]) k = some v := by
  intro m k v h
  induction m with
  | nil =>
    rw [List.nil_append, descFind_cons, if_pos (beq_self_eq_true k)]
  | cons x t ih =>
    rw [List.any_cons, Bool.or_eq_false_iff] at h
    rw [List.cons_append, descFind_cons, if_neg (by simp [h.1]), ih h.2]

theorem descFind_dictInsert (m : List (String × String)) (k v : String) :
    descFind (dictInsert m k v) k = some v := by
  rw [dictInsert]
  by_cases h : (m.any fun p => p.1 == k) = true
  · rw [if_pos h]
    exact descFind_overwrite m k v h
  · rw [if_neg h]
    exact descFind_append_new m k v (Bool.eq_false_iff.2 h)

theorem dictInsert_length_of_mem (m : List (String × String)) (k v : String)
    (h : (m.any fun p => p.1 == k) = true) :
    (dictInsert m k v).length = m.length := by
  rw [dictInsert, if_pos h, List.length_map]

theorem any_key_iff (m : List (String × String)) (k : String) :
    (m.any fun p => p.1 == k) = true ↔ k ∈ m.map Prod.fst := by
  rw [List.any_eq_true]
  constructor
  · rintro ⟨x, hx, hk⟩
    exact List.mem_map.2 ⟨x, hx, beq_iff_eq.1 hk⟩
  · rintro hk
    rcases List.mem_map.1 hk with ⟨x, hx, hfst⟩
    exact ⟨x, hx, beq_iff_eq.2 hfst⟩

theorem load_jobs_append_singleton (lines : List String) (l : String) :
    load_jobs (lines ++ [l]) =
      if (pySplitTab (pyStrip l)).length = 3 then
        dictInsert (load_jobs lines)
          (normField ((pySplitTab (pyStrip l)).getD 1 ""))
          (normField ((pySplitTab (pyStrip l)).getD 2 ""))
      else load_jobs lines := by
  rw [load_jobs, load_jobs, List.foldl_append]
  rfl

theorem loadStep_length_le (acc : List (String × String)) (l : String) :
    (loadStep acc l).length ≤
      acc.length + (if ((pySplitTab (pyStrip l)).length == 3) = true then 1 else 0) := by
  rw [loadStep]
  by_cases h3 : (pySplitTab (pyStrip l)).length = 3
  · rw [if_pos h3, if_pos (by simpa using h3), dictInsert]
    split
    · rw [List.length_map]
      omega
    · rw [List.length_append]
      simp
  · rw [if_neg h3, if_neg (by simpa using h3)]
    omega

theorem foldl_load_length_le : ∀ (lines : List String)
    (acc : List (String × String)),
    (lines.foldl loadStep acc).length ≤
      acc.length + lines.countP fun s => (pySplitTab (pyStrip s)).length == 3 := by
  intro lines
  induction lines with
  | nil => intro acc; simp
  | cons l ls ih =>
    intro acc
    simp only [List.foldl_cons, List.countP_cons]
    have hstep := loadStep_length_le acc l
    have hih := ih (loadStep acc l)
    omega

theorem load_jobs_length_le (lines : List String) :
    (load_jobs lines).length ≤
      lines.countP fun s => (pySplitTab (pyStrip s)).length == 3 := by
  have h := foldl_load_length_le lines []
  simpa [load_jobs] using h

/-- C10 (confirmed): `load_jobs` keys the catalog by the normalized
(lowercased, punctuation-to-space) job title of field 1, not by the job code
of field 0; appending a well-formed record whose normalized title already
occurs as a key overwrites the stored description without growing the
catalog, so the catalog ends up strictly smaller than the number of
well-formed records; and a line without exactly 3 tab-separated fields is
skipped. -/
theorem c10_load_jobs_semantics (lines : List String) (l : String)
    (h3 : (pySplitTab (pyStrip l)).length = 3)
    (hdup : normField ((pySplitTab (pyStrip l)).getD 1 "") ∈
      (load_jobs lines).map Prod.fst) :
    descFind (load_jobs (lines ++ [l]))
        (normField ((pySplitTab (pyStrip l)).getD 1 "")) =
      some (normField ((pySplitTab (pyStrip l)).getD 2 "")) ∧
    (load_jobs (lines ++ [l])).length = (load_jobs lines).length ∧
    (load_jobs (lines ++ [l])).length <
      (lines ++ [l]).countP (fun s => (pySplitTab (pyStrip s)).length == 3) ∧
    ∀ bad : String, ¬ (pySplitTab (pyStrip bad)).length = 3 →
      load_jobs (lines ++ [bad]) = load_jobs lines := by
  have hins : load_jobs (lines ++ [l]) =
      dictInsert (load_jobs lines)
        (normField ((pySplitTab (pyStrip l)).getD 1 ""))
        (normField ((pySplitTab (pyStrip l)).getD 2 "")) := by
    rw [load_jobs_append_singleton, if_pos h3]
  have hany : ((load_jobs lines).any
      fun p => p.1 == normField ((pySplitTab (pyStrip l)).getD 1 "")) = true :=
    (any_key_iff _ _).2 hdup
  refine ⟨?_, ?_, ?_, ?_⟩
  · rw [hins]
    exact descFind_dictInsert _ _ _
  · rw [hins]
    exact dictInsert_length_of_mem _ _ _ hany
  · rw [hins, dictInsert_length_of_mem _ _ _ hany, List.countP_append]
    have hle := load_jobs_length_le lines
    have h1 : ([l].countP fun s => (pySplitTab (pyStrip s)).length == 3) = 1 := by
      simp [List.countP_cons, h3]
    omega
  · intro bad hbad
    rw [load_jobs_append_singleton, if_neg hbad]

/-- Witness for C10: the record "2 WRITER second" (tab-separated) collides
with the earlier "1 Writer first" on the normalized title "writer"; the later
description wins and the catalog stays strictly smaller than the record
count. -/
theorem c10_witness :
    descFind (load_jobs (["1\tWriter\tfirst"] ++ ["2\tWRITER\tsecond"]))
        (normField ((pySplitTab (pyStrip "2\tWRITER\tsecond")).getD 1 "")) =
      some (normField ((pySplitTab (pyStrip "2\tWRITER\tsecond")).getD 2 "")) ∧
    (load_jobs (["1\tWriter\tfirst"] ++ ["2\tWRITER\tsecond"])).length <
      (["1\tWriter\tfirst"] ++ ["2\tWRITER\tsecond"]).countP
        (fun s => (pySplitTab (pyStrip s)).length == 3) := by
  have H := c10_load_jobs_semantics ["1\tWriter\tfirst"] "2\tWRITER\tsecond"
    (by decide) (by decide)
  exact ⟨H.1, H.2.2.1⟩
